import Mathlib

/-!
Shallow embedding of `src/app.py` (AirQualityFetcher): the city catalog,
the fuzzy city matcher built on `difflib.SequenceMatcher`, the daily-AQI
reconciliation pipeline, and the rate-limit retry loop of
`get_air_quality_data`.  Python dictionaries are modelled as association
lists with in-place update (preserving insertion order, as CPython dicts
do); JSON payloads are modelled with `Option` fields for keys that may be
absent; Python integers are `Int`; Python's float division followed by
`round` on integer sums and counts is modelled as exact rational division
followed by round-half-to-even (CPython's `round` tie-breaking rule; for
integer sum and count the tie case sum/count = k + 1/2 is exactly
representable as a double, so the model agrees with CPython at ties).
-/

/-- Entry of the merged daily series built by `get_air_quality_data`
(`{"date": ..., "label": ..., "aqi": ...}` in the Python source; `aqi` is
`Option Int` because forecast entries use `day_data.get("aqius")`, which may
be absent/null). -/
structure DailyEntry where
  date : String
  label : String
  aqi : Option Int
deriving DecidableEq, Repr

/-- Date portion of an IQAir timestamp: `timestamp_str.split("T")[0]` in the
source, i.e. the characters before the first `'T'`. -/
def datePart (s : String) : String :=
  String.mk (s.data.takeWhile (fun c => c ≠ 'T'))

/-- Python dict assignment `m[k] = v`: replace the value in place when the
key is present, otherwise append the binding at the end. -/
def insertOrReplace : List (String × DailyEntry) → String → DailyEntry →
    List (String × DailyEntry)
  | [], k, v => [(k, v)]
  | (k', v') :: m, k, v =>
    if k' = k then (k', v) :: m else (k', v') :: insertOrReplace m k v

/-- Python membership test `k in m` for a dict modelled as an association
list. -/
def hasKey (m : List (String × DailyEntry)) (k : String) : Bool :=
  m.any (fun p => p.1 == k)

/-- Python `m[k] = m.get(k, 0) + x`, used to accumulate the per-date sums
and counts in `calculate_daily_history_averages`. -/
def bump {α : Type} [Add α] : List (String × α) → String → α → List (String × α)
  | [], k, x => [(k, x)]
  | (k', v) :: m, k, x =>
    if k' = k then (k', v + x) :: m else (k', v) :: bump m k x

/-- Python dict indexing `m[k]` for a key known to be present, with default
0 (the default is never reached on the calls the source makes). -/
def getD0 {α : Type} [Zero α] (m : List (String × α)) (k : String) : α :=
  ((m.find? (fun p => p.1 == k)).map Prod.snd).getD 0

/-- CPython's built-in `round` on an exact rational value: round to the
nearest integer, ties going to the even neighbour. -/
def pyRound (q : ℚ) : ℤ :=
  if q - ⌊q⌋ < 1/2 then ⌊q⌋
  else if (1 : ℚ)/2 < q - ⌊q⌋ then ⌊q⌋ + 1
  else if Even ⌊q⌋ then ⌊q⌋ else ⌊q⌋ + 1

/-- The `"pollution"` object inside the history payload: parallel arrays
`ts` (timestamps) and `aqius` (AQI readings), either of which may be absent
from the JSON. -/
structure PollutionHist where
  ts : Option (List String)
  aqius : Option (List Int)

/-- The history payload `city_data.get("history")`: a dict that may lack its
`"pollution"` key. -/
structure HistoryData where
  pollution : Option PollutionHist

/-- One element of the forecast's `"daily"` array: a mandatory timestamp
`ts` and an optional `aqius` value. -/
structure ForecastDay where
  ts : String
  aqius : Option Int

/-- The forecast payload `city_data.get("forecast")`: a dict that may lack
its `"daily"` key. -/
structure ForecastData where
  daily : Option (List ForecastDay)

/-- The per-date sums dict built by the fold in
`calculate_daily_history_averages` (lines 230–236 of `src/app.py`). -/
def histSums (pairs : List (String × Int)) : List (String × Int) :=
  pairs.foldl (fun m p => bump m (datePart p.1) p.2) []

/-- The per-date counts dict built by the same fold. -/
def histCounts (pairs : List (String × Int)) : List (String × Nat) :=
  pairs.foldl (fun m p => bump m (datePart p.1) 1) []

/-- Body of `calculate_daily_history_averages` once the guards have passed:
group the zipped (timestamp, aqi) pairs by date, average each date's
readings with `round`, and emit entries in ascending date order
(`sorted(daily_aqi_sums.keys())`). -/
def histCore (ts : List String) (aq : List Int) : List DailyEntry :=
  let pairs := ts.zip aq
  let sums := histSums pairs
  let counts := histCounts pairs
  (List.insertionSort (fun a b : String => a ≤ b) (sums.map Prod.fst)).map
    (fun d =>
      { date := d
        label := "Avg. AQI (" ++ d ++ ")"
        aqi := some (pyRound (((getD0 sums d : ℤ) : ℚ) / ((getD0 counts d : ℕ) : ℚ))) })

/-- `calculate_daily_history_averages` (lines 217–248 of `src/app.py`),
including its guards: absent history, absent `"pollution"`, absent `"ts"`,
absent `"aqius"`, or empty `"aqius"` all yield `[]`. -/
def calculate_daily_history_averages : Option HistoryData → List DailyEntry
  | none => []
  | some h =>
    match h.pollution with
    | none => []
    | some p =>
      match p.ts with
      | none => []
      | some ts =>
        match p.aqius with
        | none => []
        | some aq => if aq = [] then [] else histCore ts aq

/-- `calculate_daily_forecast_aqi` (lines 251–266 of `src/app.py`): absent
forecast or absent `"daily"` yields `[]`; otherwise one entry per forecast
day, keyed by the date portion of its timestamp. -/
def calculate_daily_forecast_aqi : Option ForecastData → List DailyEntry
  | none => []
  | some f =>
    match f.daily with
    | none => []
    | some days =>
      days.map (fun d =>
        { date := datePart d.ts
          label := "Forecast AQI (" ++ datePart d.ts ++ ")"
          aqi := d.aqius })

/-- Step 4a of `get_air_quality_data`: `all_daily_aqi[item['date']] = item`
for each history average. -/
def histToDict (l : List DailyEntry) (m : List (String × DailyEntry)) :
    List (String × DailyEntry) :=
  l.foldl (fun m it => insertOrReplace m it.date it) m

/-- One step 4b iteration: `if item['date'] not in all_daily_aqi:
all_daily_aqi[item['date']] = item`. -/
def foreAdd (m : List (String × DailyEntry)) (it : DailyEntry) :
    List (String × DailyEntry) :=
  if hasKey m it.date then m else insertOrReplace m it.date it

/-- Step 4b of `get_air_quality_data`: add forecast entries only for dates
not already present. -/
def foreToDict (l : List DailyEntry) (m : List (String × DailyEntry)) :
    List (String × DailyEntry) :=
  l.foldl foreAdd m

/-- Steps 4a and 4b of `get_air_quality_data`: seed the dict with the
history averages, then add each forecast entry only when its date is not
already present. -/
def mergeHistForecast (histAvgs fores : List DailyEntry) :
    List (String × DailyEntry) :=
  foreToDict fores (histToDict histAvgs [])

/-- Step 4c of `get_air_quality_data`: when the current AQI is non-null,
unconditionally overwrite (or insert) today's entry with label
`"Current AQI"`. -/
def applyCurrent (m : List (String × DailyEntry)) (aqiUs : Option Int)
    (now : String) : List (String × DailyEntry) :=
  match aqiUs with
  | none => m
  | some x => insertOrReplace m now { date := now, label := "Current AQI", aqi := some x }

/-- The dict state after all three merge steps of `get_air_quality_data`. -/
def mergedDict (hist : Option HistoryData) (fore : Option ForecastData)
    (aqiUs : Option Int) (now : String) : List (String × DailyEntry) :=
  applyCurrent
    (mergeHistForecast (calculate_daily_history_averages hist)
      (calculate_daily_forecast_aqi fore))
    aqiUs now

/-- Comparison key of the final sort: `key=lambda x: x['date']`, ascending. -/
def dateLe (a b : DailyEntry) : Prop := a.date ≤ b.date

instance : DecidableRel dateLe := fun a b => by
  unfold dateLe; infer_instance

instance : IsTotal DailyEntry dateLe :=
  ⟨fun a b => le_total a.date b.date⟩

instance : IsTrans DailyEntry dateLe :=
  ⟨fun _ _ _ h h' => le_trans h h'⟩

/-- The `daily_aqi_summary` built by `get_air_quality_data`:
`sorted(all_daily_aqi.values(), key=lambda x: x['date'])` (line 331 of
`src/app.py`).  `sorted` is a stable ascending sort; the dict's keys are
distinct, so any sort by date gives the same list. -/
def reconcile (hist : Option HistoryData) (fore : Option ForecastData)
    (aqiUs : Option Int) (now : String) : List DailyEntry :=
  List.insertionSort dateLe ((mergedDict hist fore aqiUs now).map Prod.snd)

/-- Python dict read on the merge dict, returning the value bound to `k`. -/
def lookupKey (m : List (String × DailyEntry)) (k : String) : Option DailyEntry :=
  (m.find? (fun p => decide (p.1 = k))).map Prod.snd

/-- Boolean predicate selecting the series entries carrying date `d`. -/
def dateIs (d : String) : DailyEntry → Bool := fun e => decide (e.date = d)

/-- Invariant of the merge dict: keys are pairwise distinct and every
value's `date` field equals its key (all three merge phases insert entries
under their own `date`). -/
def goodDict (m : List (String × DailyEntry)) : Prop :=
  (m.map Prod.fst).Nodup ∧ ∀ p ∈ m, (Prod.snd p).date = p.1

lemma lookupKey_cons (k' : String) (v : DailyEntry)
    (m : List (String × DailyEntry)) (k : String) :
    lookupKey ((k', v) :: m) k = if k' = k then some v else lookupKey m k := by
  by_cases h : k' = k <;> simp [lookupKey, List.find?_cons, h]

lemma lookupKey_insertOrReplace_self (m : List (String × DailyEntry))
    (k : String) (v : DailyEntry) :
    lookupKey (insertOrReplace m k v) k = some v := by
  induction m with
  | nil => simp [insertOrReplace, lookupKey_cons]
  | cons p m ih =>
    obtain ⟨k', v'⟩ := p
    by_cases h : k' = k
    · simp [insertOrReplace, h, lookupKey_cons]
    · simp [insertOrReplace, h, lookupKey_cons, ih]

lemma lookupKey_insertOrReplace_ne (m : List (String × DailyEntry))
    (k : String) (v : DailyEntry) (d : String) (hd : d ≠ k) :
    lookupKey (insertOrReplace m k v) d = lookupKey m d := by
  have hkd : ¬ k = d := fun h => hd h.symm
  induction m with
  | nil =>
    show lookupKey [(k, v)] d = lookupKey [] d
    rw [lookupKey_cons, if_neg hkd]
  | cons p m ih =>
    obtain ⟨k', v'⟩ := p
    simp only [insertOrReplace]
    by_cases h : k' = k
    · have hne : ¬ k' = d := fun h' => hkd (h.symm.trans h')
      rw [if_pos h, lookupKey_cons, lookupKey_cons, if_neg hne, if_neg hne]
    · rw [if_neg h, lookupKey_cons, lookupKey_cons, ih]

lemma mem_insertOrReplace (m : List (String × DailyEntry)) (k : String)
    (v : DailyEntry) (p : String × DailyEntry)
    (hp : p ∈ insertOrReplace m k v) : p ∈ m ∨ (p.1 = k ∧ p.2 = v) := by
  induction m with
  | nil =>
    simp [insertOrReplace] at hp
    right; simp [hp]
  | cons q m ih =>
    obtain ⟨k', v'⟩ := q
    by_cases h : k' = k
    · rw [show insertOrReplace ((k', v') :: m) k v = (k', v) :: m from by
        simp [insertOrReplace, h]] at hp
      rcases List.mem_cons.1 hp with hp | hp
      · right; simp [hp, h]
      · exact Or.inl (List.mem_cons_of_mem _ hp)
    · rw [show insertOrReplace ((k', v') :: m) k v =
          (k', v') :: insertOrReplace m k v from by simp [insertOrReplace, h]] at hp
      rcases List.mem_cons.1 hp with hp | hp
      · exact Or.inl (by simp [hp])
      · rcases ih hp with hp | hp
        · exact Or.inl (List.mem_cons_of_mem _ hp)
        · exact Or.inr hp

lemma keys_insertOrReplace (m : List (String × DailyEntry)) (k : String)
    (v : DailyEntry) :
    (insertOrReplace m k v).map Prod.fst =
      if k ∈ m.map Prod.fst then m.map Prod.fst else m.map Prod.fst ++ [k] := by
  induction m with
  | nil => simp [insertOrReplace]
  | cons p m ih =>
    obtain ⟨k', v'⟩ := p
    by_cases h : k' = k
    · subst h; simp [insertOrReplace]
    · have : ¬ k = k' := fun h' => h h'.symm
      by_cases hmem : k ∈ m.map Prod.fst <;>
        simp [insertOrReplace, h, this, hmem, ih]

lemma goodDict_insertOrReplace (m : List (String × DailyEntry)) (k : String)
    (v : DailyEntry) (hm : goodDict m) (hv : v.date = k) :
    goodDict (insertOrReplace m k v) := by
  obtain ⟨hnd, hinv⟩ := hm
  constructor
  · rw [keys_insertOrReplace]
    by_cases hmem : k ∈ m.map Prod.fst
    · simpa [hmem] using hnd
    · simp only [hmem, if_neg, if_false]
      simp [List.nodup_append, hnd, hmem]
  · intro p hp
    rcases mem_insertOrReplace m k v p hp with hp | ⟨h1, h2⟩
    · exact hinv p hp
    · rw [h2, hv, h1]

lemma histToDict_cons (it : DailyEntry) (l : List DailyEntry)
    (m : List (String × DailyEntry)) :
    histToDict (it :: l) m = histToDict l (insertOrReplace m it.date it) := rfl

lemma goodDict_histToDict (l : List DailyEntry) :
    ∀ m, goodDict m → goodDict (histToDict l m) := by
  induction l with
  | nil => intro m hm; exact hm
  | cons it l ih =>
    intro m hm
    rw [histToDict_cons]
    exact ih _ (goodDict_insertOrReplace m it.date it hm rfl)

lemma foreToDict_cons (it : DailyEntry) (l : List DailyEntry)
    (m : List (String × DailyEntry)) :
    foreToDict (it :: l) m = foreToDict l (foreAdd m it) := rfl

lemma goodDict_foreAdd (m : List (String × DailyEntry)) (it : DailyEntry)
    (hm : goodDict m) : goodDict (foreAdd m it) := by
  unfold foreAdd
  by_cases h : hasKey m it.date
  · simpa [h] using hm
  · simpa [h] using goodDict_insertOrReplace m it.date it hm rfl

lemma goodDict_foreToDict (l : List DailyEntry) :
    ∀ m, goodDict m → goodDict (foreToDict l m) := by
  induction l with
  | nil => intro m hm; exact hm
  | cons it l ih =>
    intro m hm
    rw [foreToDict_cons]
    exact ih _ (goodDict_foreAdd m it hm)

lemma goodDict_mergeHistForecast (histAvgs fores : List DailyEntry) :
    goodDict (mergeHistForecast histAvgs fores) :=
  goodDict_foreToDict fores _
    (goodDict_histToDict histAvgs [] ⟨List.nodup_nil, by simp⟩)

lemma goodDict_applyCurrent (m : List (String × DailyEntry))
    (aqiUs : Option Int) (now : String) (hm : goodDict m) :
    goodDict (applyCurrent m aqiUs now) := by
  cases aqiUs with
  | none => exact hm
  | some x => exact goodDict_insertOrReplace m now _ hm rfl

lemma goodDict_mergedDict (hist : Option HistoryData)
    (fore : Option ForecastData) (aqiUs : Option Int) (now : String) :
    goodDict (mergedDict hist fore aqiUs now) :=
  goodDict_applyCurrent _ aqiUs now (goodDict_mergeHistForecast _ _)

lemma filter_values_eq (m : List (String × DailyEntry)) (d : String)
    (hm : goodDict m) :
    (m.map Prod.snd).filter (dateIs d) =
      match lookupKey m d with
      | some v => [v]
      | none => [] := by
  induction m with
  | nil => simp [lookupKey]
  | cons p m ih =>
    obtain ⟨k, v⟩ := p
    obtain ⟨hnd, hinv⟩ := hm
    have hknotin : k ∉ m.map Prod.fst := (List.nodup_cons.1 hnd).1
    have hvd : v.date = k := hinv (k, v) (List.mem_cons_self _ _)
    have hmgood : goodDict m :=
      ⟨(List.nodup_cons.1 hnd).2, fun q hq => hinv q (List.mem_cons_of_mem _ hq)⟩
    by_cases h : k = d
    · subst h
      have hnil : (m.map Prod.snd).filter (dateIs k) = [] := by
        rw [List.filter_eq_nil_iff]
        intro e he habs
        obtain ⟨q, hq, hqe⟩ := List.mem_map.1 he
        have hq1 : q.1 = k := by
          have h1 : e.date = k := of_decide_eq_true habs
          have h2 : q.2.date = q.1 := hinv q (List.mem_cons_of_mem _ hq)
          rw [← hqe, h2] at h1
          exact h1
        exact hknotin (hq1 ▸ List.mem_map_of_mem Prod.fst hq)
      simp [List.filter_cons, dateIs, hvd, lookupKey_cons, hnil]
    · have hne : ¬ v.date = d := by rw [hvd]; exact h
      simp [List.filter_cons, dateIs, hne, lookupKey_cons, h, ih hmgood]

lemma eq_of_perm_of_short {l l' : List DailyEntry} (h : l.Perm l')
    (hl : l'.length ≤ 1) : l = l' := by
  cases l' with
  | nil => exact h.eq_nil
  | cons a l'' =>
    cases l'' with
    | nil => exact List.perm_singleton.1 h
    | cons b l''' => simp at hl

lemma filter_reconcile_eq (hist : Option HistoryData)
    (fore : Option ForecastData) (aqiUs : Option Int) (now d : String) :
    (reconcile hist fore aqiUs now).filter (dateIs d) =
      ((mergedDict hist fore aqiUs now).map Prod.snd).filter (dateIs d) := by
  have hperm :
      (reconcile hist fore aqiUs now).filter (dateIs d) |>.Perm
        (((mergedDict hist fore aqiUs now).map Prod.snd).filter (dateIs d)) :=
    (List.perm_insertionSort dateLe _).filter (dateIs d)
  apply eq_of_perm_of_short hperm
  rw [filter_values_eq _ _ (goodDict_mergedDict hist fore aqiUs now)]
  cases lookupKey (mergedDict hist fore aqiUs now) d <;> simp

/-- C1: for every history, forecast, and non-null current AQI value `x`,
with current UTC date `now`, the reconciled daily series contains exactly
one entry for `now`, with aqi value `x` and label `"Current AQI"`,
regardless of what history or forecast supplied for that date; when the
current AQI is `none`, the entry for `now`, if any, is exactly what the
history/forecast merge supplied. -/
theorem C1_current_overrides (hist : Option HistoryData)
    (fore : Option ForecastData) (aqiUs : Option Int) (now : String) :
    (∀ x : Int, aqiUs = some x →
      (reconcile hist fore aqiUs now).filter (dateIs now) =
        [{ date := now, label := "Current AQI", aqi := some x }]) ∧
    (aqiUs = none →
      (reconcile hist fore aqiUs now).filter (dateIs now) =
        ((mergeHistForecast (calculate_daily_history_averages hist)
            (calculate_daily_forecast_aqi fore)).map Prod.snd).filter
          (dateIs now)) := by
  constructor
  · intro x hx
    subst hx
    rw [filter_reconcile_eq,
      filter_values_eq _ _ (goodDict_mergedDict hist fore (some x) now)]
    have hlk :
        lookupKey (mergedDict hist fore (some x) now) now =
          some { date := now, label := "Current AQI", aqi := some x } := by
      show lookupKey (insertOrReplace _ now _) now = _
      exact lookupKey_insertOrReplace_self _ now _
    rw [hlk]
  · intro hx
    subst hx
    rw [filter_reconcile_eq]
    rfl

/-- Instantiation of `C1_current_overrides` at a concrete input. -/
theorem C1_current_overrides_witness :
    (reconcile none none (some 42) "2025-10-12").filter (dateIs "2025-10-12") =
      [{ date := "2025-10-12", label := "Current AQI", aqi := some 42 }] :=
  (C1_current_overrides none none (some 42) "2025-10-12").1 42 rfl

/-- C6: for every combination of history, forecast, and current-AQI inputs,
the produced `daily_aqi_summary` is strictly ascending in its date strings,
hence sorted by date with at most one entry per distinct date. -/
theorem C6_sorted_and_unique (hist : Option HistoryData)
    (fore : Option ForecastData) (aqiUs : Option Int) (now : String) :
    (reconcile hist fore aqiUs now).Pairwise (fun a b => a.date < b.date) := by
  have hsorted : List.Sorted dateLe (reconcile hist fore aqiUs now) :=
    List.sorted_insertionSort dateLe _
  have hgood := goodDict_mergedDict hist fore aqiUs now
  have hmapdates :
      ((mergedDict hist fore aqiUs now).map Prod.snd).map
          (fun e => e.date) =
        (mergedDict hist fore aqiUs now).map Prod.fst := by
    rw [List.map_map]
    exact List.map_congr_left (fun p hp => hgood.2 p hp)
  have hperm :
      (reconcile hist fore aqiUs now).map (fun e => e.date) |>.Perm
        ((mergedDict hist fore aqiUs now).map Prod.fst) := by
    rw [← hmapdates]
    exact (List.perm_insertionSort dateLe _).map _
  have hnd : ((reconcile hist fore aqiUs now).map (fun e => e.date)).Nodup :=
    hperm.nodup_iff.2 hgood.1
  have hne : (reconcile hist fore aqiUs now).Pairwise
      (fun a b => a.date ≠ b.date) :=
    (List.pairwise_map.1 hnd)
  exact (hsorted.and hne).imp (fun h => lt_of_le_of_ne h.1 h.2)

lemma keys_bump {α : Type} [Add α] (m : List (String × α)) (k : String)
    (x : α) :
    (bump m k x).map Prod.fst =
      if k ∈ m.map Prod.fst then m.map Prod.fst else m.map Prod.fst ++ [k] := by
  induction m with
  | nil => simp [bump]
  | cons p m ih =>
    obtain ⟨k', v⟩ := p
    by_cases h : k' = k
    · subst h; simp [bump]
    · have : ¬ k = k' := fun h' => h h'.symm
      by_cases hmem : k ∈ m.map Prod.fst <;> simp [bump, h, this, hmem, ih]

lemma nodup_keys_bump {α : Type} [Add α] (m : List (String × α)) (k : String)
    (x : α) (hm : (m.map Prod.fst).Nodup) : ((bump m k x).map Prod.fst).Nodup := by
  rw [keys_bump]
  by_cases hmem : k ∈ m.map Prod.fst
  · simpa [hmem] using hm
  · simp [hmem, List.nodup_append, hm]

lemma mem_keys_bump {α : Type} [Add α] (m : List (String × α)) (k : String)
    (x : α) (d : String) :
    d ∈ (bump m k x).map Prod.fst ↔ d ∈ m.map Prod.fst ∨ d = k := by
  rw [keys_bump]
  by_cases hmem : k ∈ m.map Prod.fst
  · simp only [hmem, if_pos]
    constructor
    · exact Or.inl
    · rintro (h | h)
      · exact h
      · exact h ▸ hmem
  · simp [hmem]

lemma getD0_cons {α : Type} [Zero α] (k' : String) (v : α)
    (m : List (String × α)) (d : String) :
    getD0 ((k', v) :: m) d = if k' = d then v else getD0 m d := by
  by_cases h : k' = d <;> simp [getD0, List.find?_cons, h]

lemma getD0_bump {α : Type} [AddZeroClass α] (m : List (String × α))
    (k : String) (x : α) (d : String) :
    getD0 (bump m k x) d = getD0 m d + (if k = d then x else 0) := by
  induction m with
  | nil =>
    show getD0 [(k, x)] d = getD0 [] d + _
    rw [getD0_cons]
    by_cases h : k = d <;> simp [getD0, h]
  | cons p m ih =>
    obtain ⟨k', v⟩ := p
    simp only [bump]
    by_cases h : k' = k
    · rw [if_pos h, getD0_cons, getD0_cons]
      by_cases hd : k' = d
      · rw [if_pos hd, if_pos hd, if_pos (h.symm.trans hd)]
      · have hkd : ¬ k = d := fun hkd => hd (h.trans hkd)
        rw [if_neg hd, if_neg hd, if_neg hkd, add_zero]
    · rw [if_neg h, getD0_cons, getD0_cons]
      by_cases hd : k' = d
      · have hkd : ¬ k = d := fun hkd => h (hd.trans hkd.symm)
        rw [if_pos hd, if_pos hd, if_neg hkd, add_zero]
      · rw [if_neg hd, if_neg hd, ih]

lemma getD0_foldl_bump {α β : Type} [AddMonoid α] (f : β → String) (g : β → α) :
    ∀ (l : List β) (m : List (String × α)) (d : String),
      getD0 (l.foldl (fun m p => bump m (f p) (g p)) m) d =
        getD0 m d + ((l.filter (fun p => decide (f p = d))).map g).sum := by
  intro l
  induction l with
  | nil => intro m d; simp
  | cons p l ih =>
    intro m d
    rw [List.foldl_cons, ih]
    by_cases h : f p = d <;>
      simp [List.filter_cons, h, getD0_bump, add_assoc]

lemma nodup_keys_foldl_bump {α β : Type} [Add α] (f : β → String) (g : β → α) :
    ∀ (l : List β) (m : List (String × α)), (m.map Prod.fst).Nodup →
      ((l.foldl (fun m p => bump m (f p) (g p)) m).map Prod.fst).Nodup := by
  intro l
  induction l with
  | nil => intro m hm; exact hm
  | cons p l ih =>
    intro m hm
    rw [List.foldl_cons]
    exact ih _ (nodup_keys_bump m (f p) (g p) hm)

lemma mem_keys_foldl_bump {α β : Type} [Add α] (f : β → String) (g : β → α) :
    ∀ (l : List β) (m : List (String × α)) (d : String),
      d ∈ (l.foldl (fun m p => bump m (f p) (g p)) m).map Prod.fst ↔
        d ∈ m.map Prod.fst ∨ d ∈ l.map f := by
  intro l
  induction l with
  | nil => intro m d; simp
  | cons p l ih =>
    intro m d
    rw [List.foldl_cons, ih, mem_keys_bump]
    simp [or_assoc, or_comm, or_left_comm]

lemma nodup_keys_histSums (pairs : List (String × Int)) :
    ((histSums pairs).map Prod.fst).Nodup := by
  have h := nodup_keys_foldl_bump (fun p : String × Int => datePart p.1)
    (fun p : String × Int => p.2) pairs [] (by simp)
  exact h

lemma mem_keys_histSums (pairs : List (String × Int)) (d : String) :
    d ∈ (histSums pairs).map Prod.fst ↔
      d ∈ pairs.map (fun p => datePart p.1) := by
  have h := mem_keys_foldl_bump (fun p : String × Int => datePart p.1)
    (fun p : String × Int => p.2) pairs [] d
  simpa using h

lemma map_date_map_mk (l : List String) (mk : String → DailyEntry)
    (h : ∀ d, (mk d).date = d) : (l.map mk).map (fun e => e.date) = l := by
  induction l with
  | nil => rfl
  | cons a l ih => simp [h, ih]

lemma dates_histCore (ts : List String) (aq : List Int) :
    (histCore ts aq).map (fun e => e.date) =
      List.insertionSort (fun a b : String => a ≤ b)
        ((histSums (ts.zip aq)).map Prod.fst) :=
  map_date_map_mk
    (List.insertionSort (fun a b : String => a ≤ b)
      ((histSums (ts.zip aq)).map Prod.fst))
    (fun d =>
      { date := d
        label := "Avg. AQI (" ++ d ++ ")"
        aqi := some (pyRound (((getD0 (histSums (ts.zip aq)) d : ℤ) : ℚ) /
          ((getD0 (histCounts (ts.zip aq)) d : ℕ) : ℚ))) })
    (fun _ => rfl)

lemma nodup_dates_histCore (ts : List String) (aq : List Int) :
    ((histCore ts aq).map (fun e => e.date)).Nodup := by
  rw [dates_histCore]
  exact (List.perm_insertionSort _ _).nodup_iff.2 (nodup_keys_histSums _)

lemma nodup_dates_calcHist (h : Option HistoryData) :
    ((calculate_daily_history_averages h).map (fun e => e.date)).Nodup := by
  match h with
  | none => simp [calculate_daily_history_averages]
  | some hd =>
    match hp : hd.pollution with
    | none => simp [calculate_daily_history_averages, hp]
    | some p =>
      match hts : p.ts with
      | none => simp [calculate_daily_history_averages, hp, hts]
      | some ts =>
        match haq : p.aqius with
        | none => simp [calculate_daily_history_averages, hp, hts, haq]
        | some aq =>
          by_cases he : aq = [] <;>
            simp [calculate_daily_history_averages, hp, hts, haq, he,
              nodup_dates_histCore]

lemma lookupKey_isSome_eq_hasKey (m : List (String × DailyEntry)) (k : String) :
    (lookupKey m k).isSome = hasKey m k := by
  induction m with
  | nil => rfl
  | cons p m ih =>
    obtain ⟨k', v⟩ := p
    by_cases h : k' = k
    · simp [lookupKey_cons, hasKey, List.any_cons, h]
    · rw [lookupKey_cons, if_neg h, ih]
      simp [hasKey, List.any_cons, h]

lemma lookupKey_foreToDict (l : List DailyEntry) :
    ∀ (m : List (String × DailyEntry)) (d : String),
      lookupKey (foreToDict l m) d =
        match lookupKey m d with
        | some v => some v
        | none => l.find? (dateIs d) := by
  induction l with
  | nil =>
    intro m d
    cases h : lookupKey m d <;> simp [foreToDict, h]
  | cons it l ih =>
    intro m d
    rw [foreToDict_cons]
    unfold foreAdd
    by_cases h : hasKey m it.date
    · rw [if_pos h, ih]
      cases hm : lookupKey m d with
      | some v => rfl
      | none =>
        have hne : ¬ (dateIs d it = true) := by
          intro habs
          have h1 : it.date = d := of_decide_eq_true habs
          have h2 : (lookupKey m it.date).isSome = true := by
            rw [lookupKey_isSome_eq_hasKey, h]
          rw [h1, hm] at h2
          simp at h2
        simp [List.find?_cons_of_neg _ hne]
    · rw [if_neg h]
      by_cases hd : it.date = d
      · have hm : lookupKey m d = none := by
          cases hres : lookupKey m d with
          | none => rfl
          | some v =>
            exfalso
            apply h
            have h2 : (lookupKey m it.date).isSome = true := by
              rw [hd, hres]; rfl
            rw [lookupKey_isSome_eq_hasKey] at h2
            exact h2
        rw [ih]
        have hlk : lookupKey (insertOrReplace m it.date it) d = some it := by
          rw [← hd]
          exact lookupKey_insertOrReplace_self m it.date it
        rw [hlk, hm]
        have hpos : dateIs d it = true := decide_eq_true hd
        simp [List.find?_cons_of_pos _ hpos]
      · rw [ih, lookupKey_insertOrReplace_ne m it.date it d
          (fun h' => hd h'.symm)]
        cases hm : lookupKey m d with
        | some v => rfl
        | none =>
          have hne : ¬ (dateIs d it = true) := fun habs =>
            hd (of_decide_eq_true habs)
          simp [List.find?_cons_of_neg _ hne]

lemma lookupKey_histToDict (l : List DailyEntry)
    (hl : (l.map (fun e => e.date)).Nodup) :
    ∀ (m : List (String × DailyEntry)) (d : String),
      lookupKey (histToDict l m) d =
        match l.find? (dateIs d) with
        | some e => some e
        | none => lookupKey m d := by
  induction l with
  | nil => intro m d; rfl
  | cons it l ih =>
    intro m d
    rw [List.map_cons, List.nodup_cons] at hl
    obtain ⟨hnotin, hl'⟩ := hl
    rw [histToDict_cons, ih hl']
    by_cases hd : it.date = d
    · have hnone : l.find? (dateIs d) = none := by
        rw [List.find?_eq_none]
        intro e he habs
        exact hnotin (by
          rw [← hd] at habs
          have : e.date = it.date := of_decide_eq_true habs
          exact this ▸ List.mem_map_of_mem (fun e => e.date) he)
      rw [hnone]
      have hpos : dateIs d it = true := decide_eq_true hd
      rw [List.find?_cons_of_pos _ hpos, ← hd,
        lookupKey_insertOrReplace_self m it.date it]
    · have hne : ¬ (dateIs d it = true) := fun habs =>
        hd (of_decide_eq_true habs)
      rw [List.find?_cons_of_neg _ hne,
        lookupKey_insertOrReplace_ne m it.date it d (fun h' => hd h'.symm)]

lemma lookupKey_mergedDict_of_guard (hist : Option HistoryData)
    (fore : Option ForecastData) (aqiUs : Option Int) (now d : String)
    (hguard : aqiUs = none ∨ d ≠ now) :
    lookupKey (mergedDict hist fore aqiUs now) d =
      lookupKey (mergeHistForecast (calculate_daily_history_averages hist)
        (calculate_daily_forecast_aqi fore)) d := by
  rcases hguard with h | h
  · subst h; rfl
  · cases aqiUs with
    | none => rfl
    | some x => exact lookupKey_insertOrReplace_ne _ now _ d h

lemma filter_reconcile_lookup (hist : Option HistoryData)
    (fore : Option ForecastData) (aqiUs : Option Int) (now d : String) :
    (reconcile hist fore aqiUs now).filter (dateIs d) =
      match lookupKey (mergedDict hist fore aqiUs now) d with
      | some v => [v]
      | none => [] := by
  rw [filter_reconcile_eq,
    filter_values_eq _ _ (goodDict_mergedDict hist fore aqiUs now)]

lemma lookupKey_mergeHistForecast (hist : Option HistoryData)
    (fore : Option ForecastData) (d : String) :
    lookupKey (mergeHistForecast (calculate_daily_history_averages hist)
        (calculate_daily_forecast_aqi fore)) d =
      match (calculate_daily_history_averages hist).find? (dateIs d) with
      | some e => some e
      | none => (calculate_daily_forecast_aqi fore).find? (dateIs d) := by
  unfold mergeHistForecast
  rw [lookupKey_foreToDict,
    lookupKey_histToDict _ (nodup_dates_calcHist hist)]
  cases (calculate_daily_history_averages hist).find? (dateIs d) with
  | none =>
    show (match (lookupKey [] d : Option DailyEntry) with
      | some v => some v
      | none => (calculate_daily_forecast_aqi fore).find? (dateIs d)) = _
    rfl
  | some e => rfl

/-- Concrete forecast input used to falsify C3 as literally stated: one
forecast day for 2025-01-01 with AQI 30. -/
def c3Forecast : Option ForecastData :=
  some { daily := some [{ ts := "2025-01-01T00:00:00.000Z", aqius := some 30 }] }

/-- C3 as stated is false: with no history, a forecast entry for
2025-01-01 (value 30), a non-null current AQI of 50 and current date
2025-01-01, the date is present in the forecast and absent from the
history averages, yet the reconciled entry for it is not the forecast
entry (it is the `"Current AQI"` entry, value 50). -/
theorem C3_counterexample :
    "2025-01-01" ∈ (calculate_daily_forecast_aqi c3Forecast).map
        (fun e => e.date) ∧
    "2025-01-01" ∉ (calculate_daily_history_averages none).map
        (fun e => e.date) ∧
    (reconcile none c3Forecast (some 50) "2025-01-01").filter
        (dateIs "2025-01-01") ≠
      [{ date := "2025-01-01", label := "Forecast AQI (2025-01-01)",
         aqi := some 30 }] := by
  refine ⟨?_, ?_, ?_⟩ <;> decide

/-- C3 amended: provided the date is not the one overwritten by the
current-AQI step (current AQI null, or the date differs from the current
UTC date), a date carried by the forecast (first matching entry) and
absent from the history averages yields exactly the forecast entry, and a
date carried by the history averages yields exactly the history entry —
forecast never overwrites history. -/
theorem C3_merge_priority (hist : Option HistoryData)
    (fore : Option ForecastData) (aqiUs : Option Int) (now d : String)
    (hguard : aqiUs = none ∨ d ≠ now) :
    (∀ e : DailyEntry,
      (calculate_daily_history_averages hist).find? (dateIs d) = none →
      (calculate_daily_forecast_aqi fore).find? (dateIs d) = some e →
      (reconcile hist fore aqiUs now).filter (dateIs d) = [e]) ∧
    (∀ e : DailyEntry,
      (calculate_daily_history_averages hist).find? (dateIs d) = some e →
      (reconcile hist fore aqiUs now).filter (dateIs d) = [e]) := by
  have hmain := filter_reconcile_lookup hist fore aqiUs now d
  have hlk := lookupKey_mergedDict_of_guard hist fore aqiUs now d hguard
  have hmf := lookupKey_mergeHistForecast hist fore d
  constructor
  · intro e hn hf
    rw [hmain, hlk, hmf, hn, hf]
  · intro e hs
    rw [hmain, hlk, hmf, hs]

/-- Instantiation of `C3_merge_priority` at a concrete input. -/
theorem C3_merge_priority_witness :
    (reconcile none c3Forecast none "2099-01-01").filter
        (dateIs "2025-01-01") =
      [{ date := "2025-01-01", label := "Forecast AQI (2025-01-01)",
         aqi := some 30 }] :=
  (C3_merge_priority none c3Forecast none "2099-01-01" "2025-01-01"
    (Or.inl rfl)).1 _ rfl (by decide)

/-- The AQI readings the history supplies for date `d`: the values of the
zipped (timestamp, aqi) pairs whose timestamp's date portion is `d`. -/
def histReadings (pairs : List (String × Int)) (d : String) : List Int :=
  (pairs.filter (fun p => decide (datePart p.1 = d))).map Prod.snd

lemma getD0_histSums (pairs : List (String × Int)) (d : String) :
    getD0 (histSums pairs) d = (histReadings pairs d).sum := by
  have h := getD0_foldl_bump (fun p : String × Int => datePart p.1)
    (fun p : String × Int => p.2) pairs [] d
  have h0 : getD0 ([] : List (String × Int)) d = 0 := rfl
  rw [h0, zero_add] at h
  exact h

lemma sum_map_one {β : Type} (l : List β) :
    (l.map (fun _ => (1 : ℕ))).sum = l.length := by
  induction l with
  | nil => rfl
  | cons a l ih => simp [ih, Nat.add_comm]

lemma getD0_histCounts (pairs : List (String × Int)) (d : String) :
    getD0 (histCounts pairs) d = (histReadings pairs d).length := by
  have h : getD0 (histCounts pairs) d =
      ((pairs.filter (fun p => decide (datePart p.1 = d))).map
        (fun _ : String × Int => (1 : ℕ))).sum := by
    have h' := getD0_foldl_bump (fun p : String × Int => datePart p.1)
      (fun _ : String × Int => (1 : ℕ)) pairs [] d
    have h0 : getD0 ([] : List (String × Nat)) d = 0 := rfl
    rw [h0, zero_add] at h'
    exact h'
  rw [h, sum_map_one, histReadings, List.length_map]

lemma find?_map_dateIs (keys : List String) (mk : String → DailyEntry)
    (hmk : ∀ k, (mk k).date = k) (d : String) (hd : d ∈ keys) :
    (keys.map mk).find? (dateIs d) = some (mk d) := by
  induction keys with
  | nil => simp at hd
  | cons k keys ih =>
    by_cases h : k = d
    · have hpos : dateIs d (mk k) = true := decide_eq_true (by rw [hmk k, h])
      rw [List.map_cons, List.find?_cons_of_pos _ hpos, h]
    · have hne : ¬ (dateIs d (mk k) = true) := fun habs => by
        have := of_decide_eq_true habs
        rw [hmk k] at this
        exact h this
      rw [List.map_cons, List.find?_cons_of_neg _ hne]
      rcases List.mem_cons.1 hd with h' | h'
      · exact absurd h'.symm h
      · exact ih h'

/-- C9: for every date `d` appearing among the zipped history readings, the
history-derived entry for `d` carries label `"Avg. AQI (<d>)"` and the
arithmetic mean of `d`'s AQI readings rounded to the nearest integer with
CPython's round-half-to-even tie-breaking rule (`pyRound`). -/
theorem C9_history_mean_round (ts : List String) (aq : List Int) (d : String)
    (hd : d ∈ (ts.zip aq).map (fun p => datePart p.1)) :
    (calculate_daily_history_averages
        (some { pollution := some { ts := some ts, aqius := some aq } })).find?
        (dateIs d) =
      some { date := d, label := "Avg. AQI (" ++ d ++ ")",
             aqi := some (pyRound (((histReadings (ts.zip aq) d).sum : ℚ) /
               ((histReadings (ts.zip aq) d).length : ℚ))) } := by
  have haq : aq ≠ [] := by
    intro h
    subst h
    simp [List.zip_nil_right] at hd
  show (if aq = [] then [] else histCore ts aq).find? (dateIs d) = _
  rw [if_neg haq]
  have hmem : d ∈ List.insertionSort (fun a b : String => a ≤ b)
      ((histSums (ts.zip aq)).map Prod.fst) := by
    rw [List.mem_insertionSort]
    exact (mem_keys_histSums _ d).2 hd
  have hfind := find?_map_dateIs
    (List.insertionSort (fun a b : String => a ≤ b)
      ((histSums (ts.zip aq)).map Prod.fst))
    (fun k =>
      { date := k
        label := "Avg. AQI (" ++ k ++ ")"
        aqi := some (pyRound (((getD0 (histSums (ts.zip aq)) k : ℤ) : ℚ) /
          ((getD0 (histCounts (ts.zip aq)) k : ℕ) : ℚ))) })
    (fun _ => rfl) d hmem
  rw [show histCore ts aq =
      (List.insertionSort (fun a b : String => a ≤ b)
        ((histSums (ts.zip aq)).map Prod.fst)).map
        (fun k =>
          { date := k
            label := "Avg. AQI (" ++ k ++ ")"
            aqi := some (pyRound (((getD0 (histSums (ts.zip aq)) k : ℤ) : ℚ) /
              ((getD0 (histCounts (ts.zip aq)) k : ℕ) : ℚ))) }) from rfl,
    hfind]
  simp only [getD0_histSums, getD0_histCounts]

/-- Instantiation of `C9_history_mean_round` at a concrete input: two
readings 10 and 21 on 2025-01-01 average to 15.5, which rounds half-to-even
to 16. -/
theorem C9_history_mean_round_witness :
    (calculate_daily_history_averages
        (some { pollution := some
                  { ts := some ["2025-01-01T01:00:00.000Z",
                      "2025-01-01T02:00:00.000Z"]
                    aqius := some [10, 21] } })).find? (dateIs "2025-01-01") =
      some { date := "2025-01-01", label := "Avg. AQI (2025-01-01)",
             aqi := some (pyRound ((31 : ℚ) / (2 : ℚ))) } := by
  have h := C9_history_mean_round
    ["2025-01-01T01:00:00.000Z", "2025-01-01T02:00:00.000Z"] [10, 21]
    "2025-01-01" (by decide)
  rw [h]
  have harg :
      ((histReadings
          (["2025-01-01T01:00:00.000Z", "2025-01-01T02:00:00.000Z"].zip
            [10, 21]) "2025-01-01").sum : ℚ) /
        ((histReadings
          (["2025-01-01T01:00:00.000Z", "2025-01-01T02:00:00.000Z"].zip
            [10, 21]) "2025-01-01").length : ℚ) = (31 : ℚ) / (2 : ℚ) := by
    have hd1 : datePart "2025-01-01T01:00:00.000Z" = "2025-01-01" := by decide
    have hd2 : datePart "2025-01-01T02:00:00.000Z" = "2025-01-01" := by decide
    norm_num [histReadings, List.filter_cons, hd1, hd2]
  rw [harg]
  rfl

lemma zip_take_min {α β : Type} :
    ∀ (ts : List α) (aq : List β),
      ts.zip aq = (ts.take (min ts.length aq.length)).zip
        (aq.take (min ts.length aq.length)) := by
  intro ts
  induction ts with
  | nil => intro aq; simp
  | cons a ts ih =>
    intro aq
    cases aq with
    | nil => simp
    | cons b aq =>
      simp only [List.zip_cons_cons, List.length_cons, Nat.succ_min_succ,
        List.take_succ_cons]
      rw [ih aq]

/-- C10: when the parallel arrays `ts` and `aqius` have different lengths,
`calculate_daily_history_averages` behaves exactly as if both were
truncated to the shorter length (Python's `zip` drops the trailing elements
of the longer array), and in particular raises no error. -/
theorem C10_zip_truncates (ts : List String) (aq : List Int) :
    calculate_daily_history_averages
        (some { pollution := some { ts := some ts, aqius := some aq } }) =
      calculate_daily_history_averages
        (some { pollution := some
                  { ts := some (ts.take (min ts.length aq.length))
                    aqius := some (aq.take (min ts.length aq.length)) } }) := by
  show (if aq = [] then [] else histCore ts aq) =
    (if aq.take (min ts.length aq.length) = [] then []
     else histCore (ts.take (min ts.length aq.length))
       (aq.take (min ts.length aq.length)))
  by_cases h : aq = []
  · subst h
    simp
  · rw [if_neg h]
    by_cases h2 : aq.take (min ts.length aq.length) = []
    · rw [if_pos h2]
      have hts : ts = [] := by
        rcases (List.take_eq_nil_iff).1 h2 with h3 | h3
        · have haqlen : 0 < aq.length := List.length_pos.2 h
          have : ts.length = 0 := by omega
          exact List.length_eq_zero.1 this
        · exact absurd h3 h
      subst hts
      rfl
    · rw [if_neg h2]
      show (List.insertionSort _ ((histSums (ts.zip aq)).map Prod.fst)).map _ =
        (List.insertionSort _
          ((histSums ((ts.take (min ts.length aq.length)).zip
            (aq.take (min ts.length aq.length)))).map Prod.fst)).map _
      rw [← zip_take_min]

/-- The `"current"` pollution object of a successful payload:
`aqius` and `mainus`, either possibly absent. -/
structure CurPollution where
  aqius : Option Int
  mainus : Option String

/-- The `"current"` object of a successful payload: `pollution` and
`weather` (the weather blob is passed through uninterpreted and modelled as
an opaque string). -/
structure CurrentData where
  pollution : Option CurPollution
  weather : Option String

/-- The `"data"` object of a successful `/city` response. -/
structure CityPayload where
  current : Option CurrentData
  history : Option HistoryData
  forecast : Option ForecastData

/-- One remote interaction of an attempt of `get_air_quality_data`,
as the `try` block of lines 281–364 of `src/app.py` distinguishes them:
`ok` is a response that passes `raise_for_status` and whose JSON carries
`status == "success"`; `notSuccess` passes `raise_for_status` but carries a
non-success status (its optional `"data"` message and the HTTP status code
are recorded); `httpExc` is a `requests.exceptions.HTTPError` (as raised by
`raise_for_status`); `reqExc` is any other
`requests.exceptions.RequestException` (connection error, timeout);
`exc` is any other exception. -/
inductive Response
  | ok (p : CityPayload)
  | notSuccess (dataMsg : Option String) (code : Nat)
  | httpExc (code : Nat) (text : String)
  | reqExc (text : String)
  | exc (text : String)

/-- Result dictionary of `get_air_quality_data`: `{"success": True, ...}`
with the extracted fields, or `{"success": False, "error": msg}`. -/
inductive FetchResult
  | ok (city state country : String) (aqiUs : Option Int)
      (mainPollutant : Option String) (weather : Option String)
      (dailyAqiSummary : List DailyEntry)
  | err (msg : String)
deriving DecidableEq

/-- Whether a fetch result is the success shape. -/
def FetchResult.isOk : FetchResult → Bool
  | .ok _ _ _ _ _ _ _ => true
  | .err _ => false

/-- The `aqi_us` extraction chain
`city_data.get("current", {}).get("pollution", {}).get("aqius")`. -/
def payloadAqiUs (p : CityPayload) : Option Int :=
  match p.current with
  | none => none
  | some c =>
    match c.pollution with
    | none => none
    | some pol => pol.aqius

/-- The `main_pollutant` extraction chain. -/
def payloadMainUs (p : CityPayload) : Option String :=
  match p.current with
  | none => none
  | some c =>
    match c.pollution with
    | none => none
    | some pol => pol.mainus

/-- The `weather` extraction `current_data.get("weather", {})`. -/
def payloadWeather (p : CityPayload) : Option String :=
  match p.current with
  | none => none
  | some c => c.weather

/-- The success result built at lines 334–343 of `src/app.py`, including
the reconciled `daily_aqi_summary`. -/
def successResult (city state country now : String) (p : CityPayload) :
    FetchResult :=
  .ok city state country (payloadAqiUs p) (payloadMainUs p)
    (payloadWeather p) (reconcile p.history p.forecast (payloadAqiUs p) now)

/-- The failure message of line 367 of `src/app.py`, produced after all
retries are exhausted by rate limiting. -/
def exhaustMsg (city : String) (maxRetries : Nat) : String :=
  "Failed to retrieve data for " ++ city ++ " after " ++ toString maxRetries
    ++ " attempts due to rate limiting."

/-- The retry loop of `get_air_quality_data` (lines 280–367 of
`src/app.py`).  `script` gives the remote interaction of each attempt
(the loop index), `remaining` counts the attempts left of the
`for attempt in range(max_retries)` loop, `delay` is the mutable
`initial_delay` (doubled after each 429), and `sleeps` accumulates the
`time.sleep` durations in order.  Both 429 surfaces — the non-exception
status check of line 344 and the `HTTPError` handler of line 354 — sleep,
double the delay and continue; every other branch returns immediately. -/
def fetchLoop (script : Nat → Response) (city state country now : String)
    (maxRetries : Nat) : Nat → Nat → Nat → List Nat → FetchResult × List Nat
  | 0, _, _, sleeps => (.err (exhaustMsg city maxRetries), sleeps)
  | remaining + 1, attempt, delay, sleeps =>
    match script attempt with
    | .ok p => (successResult city state country now p, sleeps)
    | .notSuccess dataMsg code =>
      if code = 429 then
        fetchLoop script city state country now maxRetries remaining
          (attempt + 1) (delay * 2) (sleeps ++ [delay])
      else
        (.err (dataMsg.getD
          ("City data not available. Status: " ++ toString code)), sleeps)
    | .httpExc code text =>
      if code = 429 then
        fetchLoop script city state country now maxRetries remaining
          (attempt + 1) (delay * 2) (sleeps ++ [delay])
      else (.err ("API HTTP Error: " ++ text), sleeps)
    | .reqExc text => (.err ("API Request Error: " ++ text), sleeps)
    | .exc text => (.err ("An unexpected error occurred: " ++ text), sleeps)

/-- `get_air_quality_data(city, state, country, max_retries=3,
initial_delay=1)`: run the retry loop from attempt 0 with the initial
delay and no sleeps performed yet, returning the result together with the
sequence of sleep durations. -/
def get_air_quality_data (script : Nat → Response)
    (city state country now : String) (maxRetries : Nat := 3)
    (initialDelay : Nat := 1) : FetchResult × List Nat :=
  fetchLoop script city state country now maxRetries maxRetries 0
    initialDelay []

/-- A rate-limited interaction, in either surface the source handles: a
non-exception response whose payload status is not `"success"` with HTTP
status 429 (line 344), or a raised `HTTPError` carrying status 429
(line 354). -/
def is429 (r : Response) : Prop :=
  (∃ dm, r = .notSuccess dm 429) ∨ (∃ t, r = .httpExc 429 t)

lemma fetchLoop_step429 (script : Nat → Response)
    (city state country now : String) (maxR remaining attempt delay : Nat)
    (sleeps : List Nat) (h : is429 (script attempt)) :
    fetchLoop script city state country now maxR (remaining + 1) attempt
        delay sleeps =
      fetchLoop script city state country now maxR remaining (attempt + 1)
        (delay * 2) (sleeps ++ [delay]) := by
  rcases h with ⟨dm, hs⟩ | ⟨t, hs⟩ <;> simp [fetchLoop, hs]

lemma fetchLoop_ok (script : Nat → Response)
    (city state country now : String) (maxR remaining attempt delay : Nat)
    (sleeps : List Nat) (p : CityPayload) (h : script attempt = .ok p) :
    fetchLoop script city state country now maxR (remaining + 1) attempt
        delay sleeps =
      (successResult city state country now p, sleeps) := by
  simp [fetchLoop, h]

/-- C2: with `max_retries = 3` and `initial_delay = 1`, two rate-limited
attempts (in either 429 surface, which retry identically) followed by a
success yield the success result after exactly the backoff sleeps 1 then 2;
and when every attempt is rate-limited (either surface), the call returns
the rate-limit-exhaustion failure after all 3 attempts (having slept
1, 2, 4). -/
theorem C2_retry_on_429 (script : Nat → Response)
    (city state country now : String) :
    ((∀ i, i < 2 → is429 (script i)) → ∀ p : CityPayload,
      script 2 = .ok p →
      get_air_quality_data script city state country now 3 1 =
          (successResult city state country now p, [1, 2]) ∧
        (successResult city state country now p).isOk = true) ∧
    ((∀ i, i < 3 → is429 (script i)) →
      get_air_quality_data script city state country now 3 1 =
        (.err (exhaustMsg city 3), [1, 2, 4])) := by
  constructor
  · intro h429 p hp2
    constructor
    · show fetchLoop script city state country now 3 3 0 1 [] = _
      rw [show (3 : Nat) = 2 + 1 from rfl,
        fetchLoop_step429 script city state country now 3 2 0 1 []
          (h429 0 (by omega)),
        show (2 : Nat) = 1 + 1 from rfl,
        fetchLoop_step429 script city state country now 3 1 (0 + 1) (1 * 2)
          ([] ++ [1]) (h429 1 (by omega)),
        show (1 : Nat) = 0 + 1 from rfl,
        fetchLoop_ok script city state country now 3 0 (0 + 1 + 1)
          (1 * 2 * 2) (([] ++ [1]) ++ [1 * 2]) p (by simpa using hp2)]
      simp
    · rfl
  · intro h429
    show fetchLoop script city state country now 3 3 0 1 [] = _
    rw [show (3 : Nat) = 2 + 1 from rfl,
      fetchLoop_step429 script city state country now 3 2 0 1 []
        (h429 0 (by omega)),
      show (2 : Nat) = 1 + 1 from rfl,
      fetchLoop_step429 script city state country now 3 1 (0 + 1) (1 * 2)
        ([] ++ [1]) (h429 1 (by omega)),
      show (1 : Nat) = 0 + 1 from rfl,
      fetchLoop_step429 script city state country now 3 0 (0 + 1 + 1)
        (1 * 2 * 2) (([] ++ [1]) ++ [1 * 2]) (h429 2 (by omega))]
    simp [fetchLoop]

/-- Concrete three-attempt script: a non-exception 429, then a raised
429 `HTTPError`, then a successful payload. -/
def c2Script : Nat → Response := fun i =>
  if i = 0 then .notSuccess none 429
  else if i = 1 then .httpExc 429 "Too Many Requests"
  else .ok { current := none, history := none, forecast := none }

/-- Instantiation of `C2_retry_on_429` at a concrete script. -/
theorem C2_retry_on_429_witness :
    get_air_quality_data c2Script "Sao Paulo" "Sao Paulo" "Brazil"
        "2025-10-12" 3 1 =
      (successResult "Sao Paulo" "Sao Paulo" "Brazil" "2025-10-12"
        { current := none, history := none, forecast := none }, [1, 2]) :=
  ((C2_retry_on_429 c2Script "Sao Paulo" "Sao Paulo" "Brazil"
      "2025-10-12").1
    (fun i hi => by
      match i, hi with
      | 0, _ => exact Or.inl ⟨none, rfl⟩
      | 1, _ => exact Or.inr ⟨"Too Many Requests", rfl⟩)
    { current := none, history := none, forecast := none } rfl).1

/-- C7: a first attempt that fails in any non-429 way — non-success
payload status, non-429 HTTP error, network-level `RequestException`, or
any unexpected exception — makes `get_air_quality_data` return the
corresponding `{success: False, error: ...}` result immediately: no
retry is consumed, no backoff sleep happens (the sleep list is empty), and
no exception escapes (the model is a total function into results). -/
theorem C7_non429_fails_fast (script : Nat → Response)
    (city state country now : String) (n : Nat) :
    (∀ dm code, code ≠ 429 → script 0 = .notSuccess dm code →
      get_air_quality_data script city state country now (n + 1) 1 =
        (.err (dm.getD ("City data not available. Status: " ++
          toString code)), [])) ∧
    (∀ code text, code ≠ 429 → script 0 = .httpExc code text →
      get_air_quality_data script city state country now (n + 1) 1 =
        (.err ("API HTTP Error: " ++ text), [])) ∧
    (∀ text, script 0 = .reqExc text →
      get_air_quality_data script city state country now (n + 1) 1 =
        (.err ("API Request Error: " ++ text), [])) ∧
    (∀ text, script 0 = .exc text →
      get_air_quality_data script city state country now (n + 1) 1 =
        (.err ("An unexpected error occurred: " ++ text), [])) := by
  refine ⟨?_, ?_, ?_, ?_⟩
  · intro dm code hcode h
    simp [get_air_quality_data, fetchLoop, h, hcode]
  · intro code text hcode h
    simp [get_air_quality_data, fetchLoop, h, hcode]
  · intro text h
    simp [get_air_quality_data, fetchLoop, h]
  · intro text h
    simp [get_air_quality_data, fetchLoop, h]

/-- Instantiation of `C7_non429_fails_fast` at a concrete script (a
network timeout on the first attempt, default three retries). -/
theorem C7_non429_fails_fast_witness :
    get_air_quality_data (fun _ => Response.reqExc "timeout") "A" "B" "C"
        "2025-10-12" 3 1 =
      (FetchResult.err ("API Request Error: " ++ "timeout"), []) :=
  (C7_non429_fails_fast (fun _ => Response.reqExc "timeout") "A" "B" "C"
    "2025-10-12" 2).2.2.1 "timeout" rfl

/-- A record of the cities database file (`cities_database.json`): the
`city_entry` dict built by `add_city_to_database` and
`populate_initial_database`. -/
structure CityEntry where
  city : String
  state : String
  country : String
  search_string : String
deriving DecidableEq, Repr

/-- The case-insensitive triple equality used by the existence check of
`add_city_to_database` (lines 48–53 of `src/app.py`). -/
def matchesTriple (city state country : String) (c : CityEntry) : Bool :=
  c.city.toLower == city.toLower && c.state.toLower == state.toLower &&
    c.country.toLower == country.toLower

/-- `add_city_to_database(city, state, country)` (lines 35–57 of
`src/app.py`), with the loaded/saved file state passed explicitly: build
the entry with the derived lowercased search string, append it only when no
record matches the case-insensitive triple, and return the (persisted)
database. -/
def add_city_to_database (db : List CityEntry)
    (city state country : String) : List CityEntry :=
  let entry : CityEntry :=
    { city := city, state := state, country := country,
      search_string := (city ++ ", " ++ state ++ ", " ++ country).toLower }
  if db.any (matchesTriple city state country) then db else db ++ [entry]

lemma countP_eq_zero_of_not_any {α : Type} (l : List α) (p : α → Bool)
    (h : ¬ l.any p = true) : l.countP p = 0 := by
  rw [List.countP_eq_zero]
  intro a ha
  intro habs
  exact h (List.any_eq_true.2 ⟨a, ha, habs⟩)

/-- C8: calling `add_city_to_database` twice with an identical
(city, state, country) triple — existence checked by case-insensitive
triple equality — is idempotent (the second call is a no-op), and starting
from a catalog with no matching record it leaves exactly one matching
record. -/
theorem C8_addIfAbsent_idempotent (db : List CityEntry)
    (city state country : String) :
    add_city_to_database (add_city_to_database db city state country)
        city state country =
      add_city_to_database db city state country ∧
    (¬ db.any (matchesTriple city state country) = true →
      (add_city_to_database db city state country).countP
        (matchesTriple city state country) = 1) := by
  constructor
  · by_cases h : db.any (matchesTriple city state country)
    · simp [add_city_to_database, h]
    · have hself : matchesTriple city state country
          { city := city, state := state, country := country,
            search_string :=
              (city ++ ", " ++ state ++ ", " ++ country).toLower } = true := by
        simp [matchesTriple]
      simp [add_city_to_database, h, List.any_append, hself]
  · intro h
    have hcount : db.countP (matchesTriple city state country) = 0 :=
      countP_eq_zero_of_not_any db _ h
    have hself : matchesTriple city state country
        { city := city, state := state, country := country,
          search_string :=
            (city ++ ", " ++ state ++ ", " ++ country).toLower } = true := by
      simp [matchesTriple]
    simp [add_city_to_database, h, List.countP_append, hcount,
      List.countP_cons, hself]

/-- Instantiation of `C8_addIfAbsent_idempotent` at a concrete input (the
empty catalog). -/
theorem C8_addIfAbsent_idempotent_witness :
    (add_city_to_database [] "Springfield" "IL" "USA").countP
      (matchesTriple "Springfield" "IL" "USA") = 1 :=
  (C8_addIfAbsent_idempotent [] "Springfield" "IL" "USA").2 (by decide)

/-- Python `str.lower()` on the character list of a string (ASCII case
mapping, as in `Char.toLower`). -/
def lowerL (s : String) : List Char := s.data.map Char.toLower

/-- Python `s.startswith(pat)`. -/
def strStarts : List Char → List Char → Bool
  | _, [] => true
  | [], _ :: _ => false
  | c :: s, p :: ps => c = p && strStarts s ps

/-- Python `pat in s` (contiguous substring test). -/
def strContains (s pat : List Char) : Bool :=
  match s with
  | [] => pat.isEmpty
  | _ :: rest => strStarts s pat || strContains rest pat

/-- Length of the longest common prefix of two character lists. -/
def commonPrefixLen : List Char → List Char → Nat
  | a :: as, b :: bs => if a = b then commonPrefixLen as bs + 1 else 0
  | _, _ => 0

/-- Length of the matching run of `a` and `b` starting at positions
`i`, `j`, clipped to the window `[i, ahi) × [j, bhi)`. -/
def matchLenIn (a b : List Char) (i j ahi bhi : Nat) : Nat :=
  min (commonPrefixLen (a.drop i) (b.drop j)) (min (ahi - i) (bhi - j))

/-- `SequenceMatcher.find_longest_match` over the window
`[alo, ahi) × [blo, bhi)` (no junk, as with `isjunk=None` and strings
shorter than difflib's autojunk threshold): the longest matching run,
returned as (start in `a`, start in `b`, length), ties broken towards the
earliest start in `a` and then the earliest start in `b`; `(alo, blo, 0)`
when nothing matches. -/
def bestMatch (a b : List Char) (alo ahi blo bhi : Nat) : Nat × Nat × Nat :=
  (List.range' alo (ahi - alo)).foldl
    (fun best i =>
      (List.range' blo (bhi - blo)).foldl
        (fun best j =>
          if best.2.2 < matchLenIn a b i j ahi bhi then
            (i, j, matchLenIn a b i j ahi bhi)
          else best)
        best)
    (alo, blo, 0)

lemma foldl_preserve {α β : Type} (P : α → Prop) (f : α → β → α) :
    ∀ (l : List β) (init : α), P init →
      (∀ acc x, x ∈ l → P acc → P (f acc x)) → P (l.foldl f init) := by
  intro l
  induction l with
  | nil => intro init h _; exact h
  | cons x l ih =>
    intro init h hstep
    exact ih (f init x) (hstep init x (List.mem_cons_self _ _) h)
      (fun acc y hy hacc => hstep acc y (List.mem_cons_of_mem _ hy) hacc)

lemma bestMatch_bounds (a b : List Char) (alo ahi blo bhi : Nat)
    (hne : (bestMatch a b alo ahi blo bhi).2.2 ≠ 0) :
    alo ≤ (bestMatch a b alo ahi blo bhi).1 ∧
      (bestMatch a b alo ahi blo bhi).1 +
        (bestMatch a b alo ahi blo bhi).2.2 ≤ ahi ∧
      blo ≤ (bestMatch a b alo ahi blo bhi).2.1 ∧
      (bestMatch a b alo ahi blo bhi).2.1 +
        (bestMatch a b alo ahi blo bhi).2.2 ≤ bhi := by
  have main : ∀ t : Nat × Nat × Nat, t = bestMatch a b alo ahi blo bhi →
      (t.2.2 ≠ 0 → alo ≤ t.1 ∧ t.1 + t.2.2 ≤ ahi ∧ blo ≤ t.2.1 ∧
        t.2.1 + t.2.2 ≤ bhi) := by
    intro t ht
    rw [ht]
    apply foldl_preserve
      (fun t : Nat × Nat × Nat => t.2.2 ≠ 0 → alo ≤ t.1 ∧ t.1 + t.2.2 ≤ ahi ∧
        blo ≤ t.2.1 ∧ t.2.1 + t.2.2 ≤ bhi)
    · intro h0
      exact absurd rfl h0
    · intro acc i hi hacc
      have hi' : alo ≤ i ∧ i < alo + (ahi - alo) := List.mem_range'_1.1 hi
      refine foldl_preserve
        (fun t : Nat × Nat × Nat => t.2.2 ≠ 0 → alo ≤ t.1 ∧ t.1 + t.2.2 ≤ ahi ∧
          blo ≤ t.2.1 ∧ t.2.1 + t.2.2 ≤ bhi)
        (fun best j =>
          if best.2.2 < matchLenIn a b i j ahi bhi then
            (i, j, matchLenIn a b i j ahi bhi)
          else best)
        (List.range' blo (bhi - blo)) acc hacc ?_
      · intro acc2 j hj hacc2
        have hj' : blo ≤ j ∧ j < blo + (bhi - blo) := List.mem_range'_1.1 hj
        by_cases hlt : acc2.2.2 < matchLenIn a b i j ahi bhi
        · simp only [if_pos hlt]
          intro _
          have hk1 : matchLenIn a b i j ahi bhi ≤ ahi - i :=
            le_trans (min_le_right _ _) (min_le_left _ _)
          have hk2 : matchLenIn a b i j ahi bhi ≤ bhi - j :=
            le_trans (min_le_right _ _) (min_le_right _ _)
          refine ⟨hi'.1, ?_, hj'.1, ?_⟩ <;> omega
        · simp only [if_neg hlt]
          exact hacc2
  exact main _ rfl hne

/-- Total size of the matching blocks of `SequenceMatcher
.get_matching_blocks` over a window: recursively take the longest match
and recurse on the parts of the window to its left and to its right. -/
def matchingTotal (a b : List Char) (alo ahi blo bhi : Nat) : Nat :=
  if _h : 0 < (bestMatch a b alo ahi blo bhi).2.2 then
    matchingTotal a b alo (bestMatch a b alo ahi blo bhi).1 blo
        (bestMatch a b alo ahi blo bhi).2.1 +
      (bestMatch a b alo ahi blo bhi).2.2 +
      matchingTotal a b
        ((bestMatch a b alo ahi blo bhi).1 +
          (bestMatch a b alo ahi blo bhi).2.2) ahi
        ((bestMatch a b alo ahi blo bhi).2.1 +
          (bestMatch a b alo ahi blo bhi).2.2) bhi
  else 0
termination_by (ahi - alo) + (bhi - blo)
decreasing_by
  · have hb := bestMatch_bounds a b alo ahi blo bhi (by omega)
    omega
  · have hb := bestMatch_bounds a b alo ahi blo bhi (by omega)
    omega

/-- `SequenceMatcher(None, a, b).ratio()`: `2.0 * M / T` where `M` is the
total size of the matching blocks and `T` the combined length, and 1.0
when both strings are empty (difflib's `_calculate_ratio`).  difflib's
autojunk heuristic only alters the outcome when the second string has at
least 200 characters and is not modelled; on shorter inputs this is
exactly CPython's ratio. -/
def sequenceMatcherRatio (a b : List Char) : ℚ :=
  if a.length + b.length = 0 then 1
  else 2 * (matchingTotal a b 0 a.length 0 b.length : ℚ) /
    ((a.length : ℚ) + (b.length : ℚ))

/-- `similarity_score(a, b)` (lines 183–185 of `src/app.py`):
`SequenceMatcher(None, a.lower(), b.lower()).ratio()`. -/
def similarity_score (a b : String) : ℚ :=
  sequenceMatcherRatio (lowerL a) (lowerL b)

/-- Per-candidate score of `find_best_matches` (lines 198–209 of
`src/app.py`): Python floats `1.0`, `0.8` are modelled as the exact
rationals 1 and 4/5. -/
def computeScore (query : String) (e : CityEntry) : ℚ :=
  if strStarts (lowerL e.city) (lowerL query) then
    1 + similarity_score query e.city
  else if strContains e.search_string.data (lowerL query) then
    4/5 + similarity_score query e.search_string
  else similarity_score query e.search_string

/-- The `scored_cities` list (in catalog order), with each candidate's
original index recorded to express the stability of Python's `list.sort`. -/
def scoredCities (db : List CityEntry) (query : String) :
    List (ℚ × ℕ × CityEntry) :=
  db.enum.map (fun p => (computeScore query p.2, p.1, p.2))

/-- The ordering realised by `scored_cities.sort(key=lambda x: x[0],
reverse=True)`: a stable descending sort by score, i.e. sorting by
(score descending, original index ascending). -/
def scoreRel (x y : ℚ × ℕ × CityEntry) : Prop :=
  y.1 < x.1 ∨ (x.1 = y.1 ∧ x.2.1 ≤ y.2.1)

instance : DecidableRel scoreRel := fun x y => by
  unfold scoreRel; exact inferInstance

instance : IsTotal (ℚ × ℕ × CityEntry) scoreRel := by
  constructor
  intro x y
  rcases lt_trichotomy x.1 y.1 with h | h | h
  · exact Or.inr (Or.inl h)
  · rcases Nat.le_total x.2.1 y.2.1 with h2 | h2
    · exact Or.inl (Or.inr ⟨h, h2⟩)
    · exact Or.inr (Or.inr ⟨h.symm, h2⟩)
  · exact Or.inl (Or.inl h)

instance : IsTrans (ℚ × ℕ × CityEntry) scoreRel := by
  constructor
  intro x y z hxy hyz
  rcases hxy with h1 | ⟨h1, h1'⟩ <;> rcases hyz with h2 | ⟨h2, h2'⟩
  · exact Or.inl (lt_trans h2 h1)
  · exact Or.inl (by rw [← h2]; exact h1)
  · exact Or.inl (by rw [h1]; exact h2)
  · exact Or.inr ⟨h1.trans h2, le_trans h1' h2'⟩

/-- The sorted scored list. -/
def sortedScored (db : List CityEntry) (query : String) :
    List (ℚ × ℕ × CityEntry) :=
  List.insertionSort scoreRel (scoredCities db query)

/-- The scored form of the returned list:
`scored_cities[:limit]` filtered by `score > 0.3`. -/
def findBestScored (db : List CityEntry) (query : String) (limit : Nat) :
    List (ℚ × ℕ × CityEntry) :=
  ((sortedScored db query).take limit).filter
    (fun x => decide ((3 : ℚ)/10 < x.1))

/-- `find_best_matches(query, limit=5)` (lines 187–214 of `src/app.py`)
over an explicit database state: empty database short-circuits to `[]`;
otherwise score, sort descending (stably), truncate to `limit`, drop
scores ≤ 0.3, and return the entries. -/
def find_best_matches (db : List CityEntry) (query : String)
    (limit : Nat := 5) : List CityEntry :=
  if db = [] then []
  else (findBestScored db query limit).map (fun x => x.2.2)

/-- The similarity the specification prescribes: the sequence-matcher
ratio `2·M/T` over the two lowercased strings (`M` = total length of the
matching blocks, `T` = combined length; 1 when both are empty, the value
the sequence-matcher assigns to two identical — here empty — strings). -/
def specSimilarity (a b : String) : ℚ :=
  if (lowerL a).length + (lowerL b).length = 0 then 1
  else 2 * (matchingTotal (lowerL a) (lowerL b) 0 (lowerL a).length 0
      (lowerL b).length : ℚ) /
    (((lowerL a).length : ℚ) + ((lowerL b).length : ℚ))

/-- The scoring rule as the specification states it, query and catalog
fields compared case-insensitively: `1.0 + similarity(query, city)` when
the candidate's city name starts with the query; else
`0.8 + similarity(query, search_string)` when the query is a substring of
the candidate's full search string; else
`similarity(query, search_string)`. -/
def specScore (query : String) (e : CityEntry) : ℚ :=
  if strStarts (lowerL e.city) (lowerL query) then
    1 + specSimilarity query e.city
  else if strContains (lowerL (e.city ++ ", " ++ e.state ++ ", " ++ e.country))
      (lowerL query) then
    4/5 + specSimilarity query e.search_string
  else specSimilarity query e.search_string

/-- C4: for every query and catalog entry whose `search_string` is the
derived lowercased `"city, state, country"` (the only records the program
creates), the source's score agrees with the specification's scoring rule,
with `similarity` the sequence-matcher ratio `2·M/T` over the lowercased
strings. -/
theorem C4_score_matches_spec (query : String) (e : CityEntry)
    (hss : e.search_string.data =
      lowerL (e.city ++ ", " ++ e.state ++ ", " ++ e.country)) :
    computeScore query e = specScore query e := by
  unfold computeScore specScore similarity_score sequenceMatcherRatio
    specSimilarity
  rw [hss]

/-- Instantiation of `C4_score_matches_spec` at a concrete entry. -/
theorem C4_score_matches_spec_witness :
    computeScore "par"
        { city := "Paris", state := "IDF", country := "France",
          search_string := "paris, idf, france" } =
      specScore "par"
        { city := "Paris", state := "IDF", country := "France",
          search_string := "paris, idf, france" } :=
  C4_score_matches_spec "par"
    { city := "Paris", state := "IDF", country := "France",
      search_string := "paris, idf, france" } (by decide)

lemma nodup_idx_sortedScored (db : List CityEntry) (query : String) :
    ((sortedScored db query).map
      (fun x : ℚ × ℕ × CityEntry => x.2.1)).Nodup := by
  have hperm :
      ((sortedScored db query).map (fun x : ℚ × ℕ × CityEntry => x.2.1)).Perm
        ((scoredCities db query).map (fun x : ℚ × ℕ × CityEntry => x.2.1)) :=
    (List.perm_insertionSort scoreRel _).map _
  have heq : (scoredCities db query).map
      (fun x : ℚ × ℕ × CityEntry => x.2.1) = List.range db.length := by
    rw [scoredCities, List.map_map]
    exact List.enum_map_fst db
  rw [hperm.nodup_iff, heq]
  exact List.nodup_range _

lemma mem_scoredCities (db : List CityEntry) (query : String)
    (x : ℚ × ℕ × CityEntry) (hx : x ∈ scoredCities db query) :
    x.1 = computeScore query x.2.2 ∧ x.2.2 ∈ db := by
  rcases List.mem_map.1 hx with ⟨p, hp, rfl⟩
  obtain ⟨i, e⟩ := p
  refine ⟨rfl, ?_⟩
  rw [List.enum_eq_zip_range] at hp
  exact (List.of_mem_zip hp).2

/-- C5: `find_best_matches` returns at most `limit` records; its scored
form is ordered by score descending with ties kept in original catalog
order (strictly increasing original indices); no returned record scores
≤ 0.3; the returned entries are exactly the entries of the scored form;
and a query scoring ≤ 0.3 against every catalog entry yields `[]`
regardless of `limit`. -/
theorem C5_ranked_filtered (db : List CityEntry) (query : String)
    (limit : Nat) :
    (find_best_matches db query limit).length ≤ limit ∧
    List.Pairwise (fun x y : ℚ × ℕ × CityEntry => y.1 ≤ x.1)
      (findBestScored db query limit) ∧
    List.Pairwise (fun x y : ℚ × ℕ × CityEntry => x.1 = y.1 → x.2.1 < y.2.1)
      (findBestScored db query limit) ∧
    (∀ x ∈ findBestScored db query limit, (3 : ℚ)/10 < x.1) ∧
    find_best_matches db query limit =
      (findBestScored db query limit).map (fun x => x.2.2) ∧
    ((∀ e ∈ db, computeScore query e ≤ (3 : ℚ)/10) →
      find_best_matches db query limit = []) := by
  have hsorted : List.Pairwise scoreRel (sortedScored db query) :=
    List.sorted_insertionSort scoreRel _
  have hsub : List.Sublist (findBestScored db query limit)
      (sortedScored db query) :=
    (List.filter_sublist _).trans (List.take_sublist _ _)
  have hmapeq : find_best_matches db query limit =
      (findBestScored db query limit).map (fun x => x.2.2) := by
    by_cases hdb : db = []
    · subst hdb
      simp [find_best_matches, findBestScored, sortedScored, scoredCities,
        List.insertionSort]
    · simp [find_best_matches, hdb]
  refine ⟨?_, ?_, ?_, ?_, hmapeq, ?_⟩
  · rw [hmapeq, List.length_map]
    calc (findBestScored db query limit).length
        ≤ ((sortedScored db query).take limit).length :=
          List.length_filter_le _ _
      _ ≤ limit := by
          rw [List.length_take]
          exact Nat.min_le_left _ _
  · refine (List.Pairwise.sublist hsub hsorted).imp ?_
    intro x y h
    rcases h with h | ⟨h, _⟩
    · exact le_of_lt h
    · exact le_of_eq h.symm
  · have hpne : List.Pairwise
        (fun x y : ℚ × ℕ × CityEntry => x.2.1 ≠ y.2.1)
        (sortedScored db query) :=
      List.pairwise_map.1 (nodup_idx_sortedScored db query)
    have hcomb := hsorted.and hpne
    refine List.Pairwise.sublist hsub (hcomb.imp ?_)
    intro x y h heq
    obtain ⟨hr, hne⟩ := h
    rcases hr with h | ⟨_, hle⟩
    · exact absurd (heq ▸ h) (lt_irrefl _)
    · exact lt_of_le_of_ne hle hne
  · intro x hx
    exact of_decide_eq_true (List.mem_filter.1 hx).2
  · intro hall
    rw [hmapeq]
    have hnil : findBestScored db query limit = [] := by
      rw [findBestScored, List.filter_eq_nil_iff]
      intro x hxtake habs
      have hxsorted : x ∈ sortedScored db query :=
        (List.take_sublist _ _).subset hxtake
      have hxscored : x ∈ scoredCities db query :=
        (List.perm_insertionSort scoreRel _).mem_iff.1 hxsorted
      obtain ⟨hscore, hmem⟩ := mem_scoredCities db query x hxscored
      have hlt := of_decide_eq_true habs
      rw [hscore] at hlt
      exact absurd hlt (not_lt.2 (hall _ hmem))
    rw [hnil]
    rfl

/-- Instantiation of `C5_ranked_filtered` at a concrete input: every entry
of the empty catalog scores ≤ 0.3, so the result is empty. -/
theorem C5_ranked_filtered_witness :
    find_best_matches [] "spring" 5 = [] :=
  (C5_ranked_filtered [] "spring" 5).2.2.2.2.2 (by simp)
